import Mathlib

/-!
Verification of the incremental speech-synthesis pipeline of aura-voice:
the sentence chunker (src/app/actions.ts, textChunker), the synthesis
channel manager (textToSpeechInputStreaming and endConversation), the
audio scheduler (AssistantButton.tsx, decode and schedulePlaySource) and
the media-recorder stop handoff (useMediaRecorder.ts, stopRecording).

JS strings are modelled as lists of characters: s.slice(-1) becomes
List.getLast?, s[0] becomes List.head?, s.slice(1) becomes List.tail.
Clock times and durations are modelled as rationals.
-/

namespace Aura

/-- Shorthand: the character list of a string literal. -/
def str (s : String) : List Char := s.data

/-- The boundary character list of textChunker (actions.ts lines 71-85).
It has thirteen entries; the thirteenth is the closing curly brace,
written here as Char.ofNat 125. -/
def splitters : List Char :=
  ['.', ',', '?', '!', ';', ':', '—', '-', '(', ')', '[', ']', Char.ofNat 125]

/-- Modelled from the spec: the twelve-character boundary set section 4.1
lists for the Chunker (end-of-sentence/clause punctuation), which does
not include the closing curly brace. -/
def specSplitters : List Char :=
  ['.', ',', '?', '!', ';', ':', '—', '-', '(', ')', '[', ']']

/-- splitters.includes(buffer.slice(-1)) from actions.ts line 91: true
iff the buffer is nonempty and its last character is a boundary
character (slice(-1) of an empty string is "", which is not included). -/
def isEndOfSentence (buffer : List Char) : Bool :=
  match buffer.getLast? with
  | some c => splitters.contains c
  | none => false

/-- The loop body of textChunker (actions.ts lines 86-112) over the
remaining deltas, carrying the mutable buffer.  Each consumed delta
either flushes the buffer followed by a space (when the buffer ends in a
boundary character), flushes buffer plus the delta head plus a space
(when the delta starts with a boundary character), or is appended to the
buffer; after the last delta a nonempty buffer is flushed with a
trailing space. -/
def textChunkerAux : List Char → List (List Char) → List (List Char)
  | buffer, [] => if buffer = [] then [] else [buffer ++ [' ']]
  | buffer, text :: rest =>
    if isEndOfSentence buffer then
      (buffer ++ [' ']) :: textChunkerAux text rest
    else
      match text with
      | [] => textChunkerAux buffer rest
      | c :: cs =>
        if splitters.contains c then
          (buffer ++ [c, ' ']) :: textChunkerAux cs rest
        else
          textChunkerAux (buffer ++ c :: cs) rest

/-- textChunker consuming a finite delta sequence, starting from an
empty buffer. -/
def textChunker (deltas : List (List Char)) : List (List Char) :=
  textChunkerAux [] deltas

/-- A client-to-server frame of the synthesis wire protocol: its text,
the optional voice_settings pair (stability, similarity_boost), whether
it carries the xi_api_key credential, and the try_trigger_generation
flag. -/
structure OutFrame where
  text : List Char
  voiceSettings : Option (ℚ × ℚ)
  apiKey : Bool
  tryTriggerGeneration : Bool
deriving DecidableEq, Repr

/-- The initialization frame the onopen handler sends (actions.ts lines
128-137): a single space of text, voice settings 0.5 and 0.5, and the
api key. -/
def bosMessage : OutFrame :=
  OutFrame.mk [' '] (some (1 / 2, 1 / 2)) true false

/-- The frame sent for one chunk (actions.ts lines 179-184). -/
def chunkFrame (chunk : List Char) : OutFrame :=
  OutFrame.mk chunk none false true

/-- The end-of-stream message endConversation builds but never sends
(actions.ts line 196; the send on line 197 is commented out). -/
def eosMessage : OutFrame :=
  OutFrame.mk [] none false false

/-- The send loop of textToSpeechInputStreaming (actions.ts lines
178-185): one frame per chunk, in chunk order; nothing is sent after the
loop. -/
def sendLoop : List (List Char) → List OutFrame
  | [] => []
  | chunk :: rest => chunkFrame chunk :: sendLoop rest

/-- The readyState of the module-level socket, together with the null
(never created) case. -/
inductive SocketState
  | nullSock
  | connecting
  | opened
  | closing
  | closed
deriving DecidableEq, Repr

/-- The reconnect test of actions.ts line 124:
a new socket is created iff the reference is null or the readyState is
CLOSED. -/
def reconnects : SocketState → Bool
  | SocketState.nullSock => true
  | SocketState.closed => true
  | _ => false

/-- Initialization frames one turn sends: when the socket is recreated,
its onopen handler sends the bos message once the connection opens; a
reused connection gets none (actions.ts lines 124-143). -/
def initFrames (s : SocketState) : List OutFrame :=
  if reconnects s then [bosMessage] else []

/-- Socket state after a turn, assuming a recreated connection opens
successfully; an existing connection is left as it was. -/
def turnPostState (s : SocketState) : SocketState :=
  if reconnects s then SocketState.opened else s

/-- All frames one call of textToSpeechInputStreaming sends for the
given delta sequence: the initialization frame when reconnecting, then
one frame per chunk.  No end-of-stream frame follows the loop. -/
def turnFrames (s : SocketState) (deltas : List (List Char)) : List OutFrame :=
  initFrames s ++ sendLoop (textChunker deltas)

/-- Frames sent by endConversation (actions.ts lines 194-201): the send
of the eos message is commented out in the source, so no frame is sent
in any socket state. -/
def endConversationFrames (_s : SocketState) : List OutFrame := []

/-- Whether a frame carries initialization data (voice settings or the
credential). -/
def isInitFrame (f : OutFrame) : Bool := f.voiceSettings.isSome || f.apiKey

/-- One scheduled buffer: its start time on the output clock and its
decoded duration, in seconds. -/
structure PlaybackSlot where
  startTime : ℚ
  duration : ℚ
deriving DecidableEq, Repr

/-- One decode step of AssistantButton.tsx lines 195-224: if
nextPlayTime is behind the output clock it is pulled up to the clock
(lines 215-217); the source starts at the resulting nextPlayTime
(schedulePlaySource, line 258); then nextPlayTime advances by the
decoded buffer duration (line 221).  Returns the created slot and the
new nextPlayTime. -/
def decodeStep (nextPlayTime now duration : ℚ) : PlaybackSlot × ℚ :=
  let insertTime := if nextPlayTime < now then now else nextPlayTime
  (PlaybackSlot.mk insertTime duration, insertTime + duration)

/-- Draining a queue of frames, each given as the clock reading at its
decode and its decoded duration, through decodeStep, as the
self-recursive decode loop does. -/
def decodeAll : ℚ → List (ℚ × ℚ) → List PlaybackSlot × ℚ
  | npt, [] => ([], npt)
  | npt, frame :: rest =>
    let step := decodeStep npt frame.1 frame.2
    let after := decodeAll step.2 rest
    (step.1 :: after.1, after.2)

/-- Two slots do not overlap in time: one ends no later than the other
starts. -/
def slotsDisjoint (a b : PlaybackSlot) : Prop :=
  a.startTime + a.duration ≤ b.startTime ∨
    b.startTime + b.duration ≤ a.startTime

/-- Poll interval of the stopRecording promise, in milliseconds
(useMediaRecorder.ts line 104). -/
def interval : Nat := 100

/-- Timeout of the stopRecording promise, in milliseconds
(useMediaRecorder.ts line 105). -/
def timeoutMs : Nat := 3000

/-- Result of stopRecording: the early undefined return when not
recording, the recorded blob of a given size, the undefined resolution
when the blob is empty, or the timeout rejection. -/
inductive StopResult
  | notRecording
  | blob (size : Nat)
  | emptyBlob
  | timedOut
deriving DecidableEq, Repr

/-- The polling loop of stopRecording (useMediaRecorder.ts lines
102-129).  chunkAt gives the recorded data chunk (by its size) visible
at the k-th interval callback, if any; timer is the elapsed-time
counter.  The fuel argument bounds how many callbacks are modelled; none
means the fuel ran out before the loop settled. -/
def pollLoop (chunkAt : Nat → Option Nat) :
    Nat → Nat → Nat → Option StopResult
  | 0, _, _ => none
  | fuel + 1, tick, timer =>
    match chunkAt tick with
    | some size =>
      if 0 < size then some (StopResult.blob size)
      else some StopResult.emptyBlob
    | none =>
      if timeoutMs ≤ timer then some StopResult.timedOut
      else pollLoop chunkAt fuel (tick + 1) (timer + interval)

/-- MediaRecorder state as observed by stopRecording. -/
inductive RecorderState
  | inactive
  | recording
  | paused
deriving DecidableEq, Repr

/-- stopRecording (useMediaRecorder.ts lines 85-130): an early undefined
return unless the recorder is recording, otherwise the polling promise.
Thirty-one callbacks are enough fuel for the timer to climb from 0 to
the 3000 ms timeout in steps of 100 ms. -/
def stopRecording (state : RecorderState) (chunkAt : Nat → Option Nat) :
    Option StopResult :=
  if state = RecorderState.recording then pollLoop chunkAt 31 0 0
  else some StopResult.notRecording

theorem isEndOfSentence_concat (l : List Char) (c : Char) :
    isEndOfSentence (l ++ [c]) = splitters.contains c := by
  simp [isEndOfSentence]

theorem textChunkerAux_join (deltas : List (List Char)) :
    ∀ buffer : List Char,
      ((textChunkerAux buffer deltas).map List.dropLast).flatten =
        buffer ++ deltas.flatten := by
  induction deltas with
  | nil =>
    intro buffer
    by_cases h : buffer = []
    · simp [textChunkerAux, h]
    · simp [textChunkerAux, h]
  | cons d rest ih =>
    intro buffer
    by_cases h : isEndOfSentence buffer = true
    · simp [textChunkerAux, h, ih]
    · cases d with
      | nil => simp [textChunkerAux, h, ih]
      | cons c cs =>
        by_cases hc : c ∈ splitters
        · simp [textChunkerAux, h, hc, ih]
        · simp [textChunkerAux, h, hc, ih]

theorem textChunkerAux_shape (deltas : List (List Char)) :
    ∀ buffer chunk : List Char, chunk ∈ textChunkerAux buffer deltas →
      ∃ c, chunk = c ++ [' '] ∧ c ≠ [] := by
  induction deltas with
  | nil =>
    intro buffer chunk h
    by_cases hb : buffer = []
    · simp [textChunkerAux, hb] at h
    · simp [textChunkerAux, hb] at h
      exact ⟨buffer, h, hb⟩
  | cons d rest ih =>
    intro buffer chunk h
    by_cases he : isEndOfSentence buffer = true
    · have hb : buffer ≠ [] := by
        intro hb
        rw [hb] at he
        simp [isEndOfSentence] at he
      simp only [textChunkerAux, he, if_true] at h
      rcases List.mem_cons.mp h with h | h
      · exact ⟨buffer, h, hb⟩
      · exact ih d chunk h
    · cases d with
      | nil =>
        simp only [textChunkerAux, he, if_false, Bool.false_eq_true] at h
        exact ih buffer chunk h
      | cons c cs =>
        by_cases hc : c ∈ splitters
        · simp only [textChunkerAux, he, if_false, Bool.false_eq_true] at h
          rw [if_pos (by simpa using hc)] at h
          rcases List.mem_cons.mp h with h | h
          · refine ⟨buffer ++ [c], by simpa using h, by simp⟩
          · exact ih cs chunk h
        · simp only [textChunkerAux, he, if_false, Bool.false_eq_true] at h
          rw [if_neg (by simpa using hc)] at h
          exact ih (buffer ++ c :: cs) chunk h

/-- C1: concatenating all chunks textChunker emits for a finite delta
sequence, with the single appended trailing space of each chunk removed,
reproduces exactly the concatenation of the input deltas; the list model
emits chunks in generation order. -/
theorem C1_lossless_reassembly (deltas : List (List Char)) :
    ((textChunker deltas).map List.dropLast).flatten = deltas.flatten := by
  simpa [textChunker] using textChunkerAux_join deltas []

/-- C2 as stated is false: on the deltas "Hello", ", world",
"! How are you", "?" the chunker does not emit the two chunks
"Hello, world! " and "How are you? "; boundary punctuation at the start
of a delta flushes the buffer immediately. -/
theorem C2_counterexample :
    textChunker [str "Hello", str ", world", str "! How are you", str "?"] ≠
      [str "Hello, world! ", str "How are you? "] := by
  decide

/-- C2 amended: on the deltas "Hello", ", world", "! How are you", "?"
the chunker emits exactly the three chunks "Hello, ", " world! " and
" How are you? ", in that order. -/
theorem C2_amended :
    textChunker [str "Hello", str ", world", str "! How are you", str "?"] =
      [str "Hello, ", str " world! ", str " How are you? "] := by
  decide

theorem sendLoop_mem (chunks : List (List Char)) (f : OutFrame)
    (h : f ∈ sendLoop chunks) : ∃ c ∈ chunks, f = chunkFrame c := by
  induction chunks with
  | nil => simp [sendLoop] at h
  | cons a rest ih =>
    simp only [sendLoop] at h
    rcases List.mem_cons.mp h with h | h
    · exact ⟨a, List.mem_cons_self a rest, h⟩
    · obtain ⟨c, hc, hf⟩ := ih h
      exact ⟨c, List.mem_cons_of_mem a hc, hf⟩

theorem sendLoop_map_text (chunks : List (List Char)) :
    (sendLoop chunks).map OutFrame.text = chunks := by
  induction chunks with
  | nil => rfl
  | cons a rest ih => simp [sendLoop, chunkFrame, ih]

theorem sendLoop_filter_init (chunks : List (List Char)) :
    (sendLoop chunks).filter isInitFrame = [] := by
  induction chunks with
  | nil => rfl
  | cons a rest ih => simp [sendLoop, isInitFrame, chunkFrame, ih]

theorem decodeStep_le (npt now dur : ℚ) (h : 0 ≤ dur) :
    npt ≤ (decodeStep npt now dur).2 := by
  simp only [decodeStep]
  split <;> linarith

theorem decodeAll_le (frames : List (ℚ × ℚ)) :
    ∀ npt : ℚ, (∀ p ∈ frames, 0 ≤ p.2) → npt ≤ (decodeAll npt frames).2 := by
  induction frames with
  | nil =>
    intro npt _
    simp [decodeAll]
  | cons f rest ih =>
    intro npt h
    have h1 : npt ≤ (decodeStep npt f.1 f.2).2 :=
      decodeStep_le npt f.1 f.2 (h f (List.mem_cons_self f rest))
    have h2 := ih (decodeStep npt f.1 f.2).2
      (fun p hp => h p (List.mem_cons_of_mem f hp))
    calc npt ≤ (decodeStep npt f.1 f.2).2 := h1
      _ ≤ (decodeAll (decodeStep npt f.1 f.2).2 rest).2 := h2
      _ = (decodeAll npt (f :: rest)).2 := rfl

theorem pollLoop_isSome (chunkAt : Nat → Option Nat) :
    ∀ fuel tick timer : Nat, timeoutMs ≤ timer + interval * fuel →
      (pollLoop chunkAt (fuel + 1) tick timer).isSome = true := by
  intro fuel
  induction fuel with
  | zero =>
    intro tick timer h
    simp only [Nat.mul_zero, Nat.add_zero] at h
    cases hc : chunkAt tick with
    | some size =>
      by_cases hs : 0 < size
      · simp [pollLoop, hc, hs]
      · simp [pollLoop, hc, hs]
    | none => simp [pollLoop, hc, h]
  | succ n ih =>
    intro tick timer h
    cases hc : chunkAt tick with
    | some size =>
      by_cases hs : 0 < size
      · simp [pollLoop, hc, hs]
      · simp [pollLoop, hc, hs]
    | none =>
      by_cases ht : timeoutMs ≤ timer
      · simp [pollLoop, hc, ht]
      · have h2 : timeoutMs ≤ timer + interval + interval * n := by
          simp only [timeoutMs, interval] at h ⊢
          omega
        simpa [pollLoop, hc, ht] using ih (tick + 1) (timer + interval) h2

/-- C3: the scheduled start time of each frame equals
max(nextPlayTime, clockTime), after which nextPlayTime advances by the
decoded duration; for three frames of durations 1, 1/2 and 2 seconds
arriving back-to-back with nextPlayTime starting at t0 and the clock not
past t0, the final nextPlayTime is t0 + 7/2, and the three scheduled
slots are pairwise non-overlapping. -/
theorem C3_schedule (t0 c1 c2 c3 npt now dur : ℚ)
    (h1 : c1 ≤ t0) (h2 : c2 ≤ t0) (h3 : c3 ≤ t0) :
    ((decodeStep npt now dur).1.startTime = max npt now ∧
        (decodeStep npt now dur).2 = max npt now + dur) ∧
      (decodeAll t0 [(c1, 1), (c2, 1 / 2), (c3, 2)]).2 = t0 + 7 / 2 ∧
      List.Pairwise slotsDisjoint
        (decodeAll t0 [(c1, 1), (c2, 1 / 2), (c3, 2)]).1 := by
  have hmax : ∀ a b : ℚ, (if a < b then b else a) = max a b := by
    intro a b
    rcases lt_or_le a b with hab | hab
    · rw [if_pos hab, max_eq_right (le_of_lt hab)]
    · rw [if_neg (not_lt.mpr hab), max_eq_left hab]
  have e1 : decodeStep t0 c1 1 = (PlaybackSlot.mk t0 1, t0 + 1) := by
    simp only [decodeStep, if_neg (not_lt.mpr h1)]
  have e2 : decodeStep (t0 + 1) c2 (1 / 2) =
      (PlaybackSlot.mk (t0 + 1) (1 / 2), t0 + 3 / 2) := by
    have hlt : ¬ t0 + 1 < c2 := by linarith
    have harith : t0 + 1 + 1 / 2 = t0 + 3 / 2 := by ring
    simp only [decodeStep, if_neg hlt, harith]
  have e3 : decodeStep (t0 + 3 / 2) c3 2 =
      (PlaybackSlot.mk (t0 + 3 / 2) 2, t0 + 7 / 2) := by
    have hlt : ¬ t0 + 3 / 2 < c3 := by linarith
    have harith : t0 + 3 / 2 + 2 = t0 + 7 / 2 := by ring
    simp only [decodeStep, if_neg hlt, harith]
  have key : decodeAll t0 [(c1, 1), (c2, 1 / 2), (c3, 2)] =
      ([PlaybackSlot.mk t0 1, PlaybackSlot.mk (t0 + 1) (1 / 2),
        PlaybackSlot.mk (t0 + 3 / 2) 2], t0 + 7 / 2) := by
    simp only [decodeAll]
    rw [e1]
    dsimp only
    rw [e2]
    dsimp only
    rw [e3]
  refine ⟨⟨?_, ?_⟩, ?_, ?_⟩
  · simp only [decodeStep, hmax]
  · simp only [decodeStep, hmax]
  · rw [key]
  · rw [key]
    apply List.Pairwise.cons
    · intro b hb
      rcases List.mem_cons.mp hb with rfl | hb
      · simp only [slotsDisjoint]
        left
        linarith
      · rcases List.mem_cons.mp hb with rfl | hb
        · simp only [slotsDisjoint]
          left
          linarith
        · simp at hb
    · apply List.Pairwise.cons
      · intro b hb
        rcases List.mem_cons.mp hb with rfl | hb
        · simp only [slotsDisjoint]
          left
          linarith
        · simp at hb
      · exact List.pairwise_singleton slotsDisjoint _

/-- C3 witness: the schedule property instantiated at t0 = 0 with all
clock readings 0. -/
theorem C3_schedule_witness :
    ((decodeStep (0 : ℚ) 0 0).1.startTime = max 0 0 ∧
        (decodeStep (0 : ℚ) 0 0).2 = max 0 0 + 0) ∧
      (decodeAll (0 : ℚ) [(0, 1), (0, 1 / 2), (0, 2)]).2 = 0 + 7 / 2 ∧
      List.Pairwise slotsDisjoint
        (decodeAll (0 : ℚ) [(0, 1), (0, 1 / 2), (0, 2)]).1 :=
  C3_schedule 0 0 0 0 0 0 0 (le_refl 0) (le_refl 0) (le_refl 0)

/-- C4 as stated is false: a complete turn from a fresh socket followed
by endConversation sends no frame whose text is empty — the only
end-of-stream sends in the source are commented out. -/
theorem C4_counterexample :
    (turnFrames SocketState.nullSock [str "Hi."] ++
        endConversationFrames SocketState.opened).all
      (fun f => !f.text.isEmpty) = true := by
  decide

/-- C4 amended: after the chunker's chunks are sent, no end-of-stream
frame follows: endConversation sends nothing in any state (its send of
the empty-text message is commented out), and no frame a turn sends has
empty text. -/
theorem C4_amended (s s2 : SocketState) (deltas : List (List Char))
    (f : OutFrame) (hf : f ∈ turnFrames s deltas) :
    endConversationFrames s2 = [] ∧ f.text ≠ [] := by
  refine ⟨rfl, ?_⟩
  simp only [turnFrames] at hf
  rcases List.mem_append.mp hf with h | h
  · rw [initFrames] at h
    by_cases hr : reconnects s = true
    · rw [if_pos hr] at h
      have hb : f = bosMessage := by simpa using h
      subst hb
      simp [bosMessage]
    · rw [if_neg hr] at h
      simp at h
  · obtain ⟨c, hc, rfl⟩ := sendLoop_mem _ f h
    obtain ⟨c0, rfl, _⟩ := textChunkerAux_shape deltas [] c hc
    simp [chunkFrame]

/-- C4 witness: the chunk frame for "Hi. " is sent in the turn for the
delta "Hi." from a fresh socket, endConversation sends nothing, and that
frame's text is nonempty. -/
theorem C4_amended_witness :
    chunkFrame (str "Hi. ") ∈ turnFrames SocketState.nullSock [str "Hi."] ∧
      (endConversationFrames SocketState.opened = [] ∧
        (chunkFrame (str "Hi. ")).text ≠ []) :=
  ⟨by decide, C4_amended SocketState.nullSock SocketState.opened [str "Hi."]
    (chunkFrame (str "Hi. ")) (by decide)⟩

/-- C5: the frames of the chunk-sending loop project back, in order, to
exactly the chunk list — every chunk is sent exactly once, in generation
order — and every frame of the loop has try_trigger_generation set and
carries neither voice settings nor the credential. -/
theorem C5_frames_in_order (deltas : List (List Char)) (f : OutFrame)
    (hf : f ∈ sendLoop (textChunker deltas)) :
    (sendLoop (textChunker deltas)).map OutFrame.text = textChunker deltas ∧
      f.tryTriggerGeneration = true ∧ f.voiceSettings = none ∧
      f.apiKey = false := by
  obtain ⟨c, _, rfl⟩ := sendLoop_mem _ f hf
  exact ⟨sendLoop_map_text _, rfl, rfl, rfl⟩

/-- C5 witness: the frame list for the single delta "Hi." projects back
to its chunk list, and its one frame has the trigger flag and no
initialization data. -/
theorem C5_frames_in_order_witness :
    chunkFrame (str "Hi. ") ∈ sendLoop (textChunker [str "Hi."]) ∧
      ((sendLoop (textChunker [str "Hi."])).map OutFrame.text =
          textChunker [str "Hi."] ∧
        (chunkFrame (str "Hi. ")).tryTriggerGeneration = true ∧
        (chunkFrame (str "Hi. ")).voiceSettings = none ∧
        (chunkFrame (str "Hi. ")).apiKey = false) :=
  ⟨by decide,
    C5_frames_in_order [str "Hi."] (chunkFrame (str "Hi. ")) (by decide)⟩

/-- C6: starting from a null or closed socket, the first turn leaves the
session open; the second turn finds it open, reuses it, sends no
initialization frame and leaves it open, so the two turns together send
exactly one initialization frame, on the first turn only. -/
theorem C6_single_init (s : SocketState) (d1 d2 : List (List Char))
    (h : s = SocketState.nullSock ∨ s = SocketState.closed) :
    turnPostState s = SocketState.opened ∧
      initFrames (turnPostState s) = [] ∧
      turnPostState (turnPostState s) = SocketState.opened ∧
      ((turnFrames s d1 ++ turnFrames (turnPostState s) d2).filter
          isInitFrame).length = 1 := by
  have hr : reconnects s = true := by
    rcases h with h | h <;> subst h <;> rfl
  have hpost : turnPostState s = SocketState.opened := by
    simp [turnPostState, hr]
  have hro : reconnects SocketState.opened = false := rfl
  refine ⟨hpost, ?_, ?_, ?_⟩
  · rw [hpost]
    simp [initFrames, hro]
  · rw [hpost]
    simp [turnPostState, hro]
  · rw [hpost]
    simp [turnFrames, List.filter_append, sendLoop_filter_init, initFrames,
      hr, hro, isInitFrame, bosMessage]

/-- C6 witness: the single-initialization property instantiated at a
null socket and two one-delta turns. -/
theorem C6_single_init_witness :
    turnPostState SocketState.nullSock = SocketState.opened ∧
      initFrames (turnPostState SocketState.nullSock) = [] ∧
      turnPostState (turnPostState SocketState.nullSock) =
        SocketState.opened ∧
      ((turnFrames SocketState.nullSock [str "Hi."] ++
          turnFrames (turnPostState SocketState.nullSock)
            [str "Bye."]).filter isInitFrame).length = 1 :=
  C6_single_init SocketState.nullSock [str "Hi."] [str "Bye."] (Or.inl rfl)

/-- C7 as stated is false: the closing curly brace also triggers a chunk
boundary although it is not among the twelve characters the spec lists —
a buffer ending in it flushes, and a delta starting with it flushes the
buffer with it appended. -/
theorem C7_counterexample :
    isEndOfSentence [Char.ofNat 125] = true ∧
      (Char.ofNat 125) ∉ specSplitters ∧
      textChunker [['a'], [Char.ofNat 125, 'x'], ['y']] =
        [['a', Char.ofNat 125, ' '], ['x', 'y', ' ']] := by
  decide

/-- C7 amended: a character triggers a chunk boundary — whether as the
buffer's last character or as an incoming delta's first character — iff
it is one of the thirteen characters of the splitters list: the twelve
the spec lists plus the closing curly brace. -/
theorem C7_amended (c : Char) :
    ((textChunker [['a', c], ['x']]).length = 2 ↔ c ∈ splitters) ∧
    ((textChunker [['a'], [c, 'x'], ['y']]).length = 2 ↔ c ∈ splitters) := by
  have ha : ('a') ∉ splitters := by decide
  have hx : ('x') ∉ splitters := by decide
  have hy : ('y') ∉ splitters := by decide
  have hpair : ∀ d : Char, isEndOfSentence [d, c] = splitters.contains c :=
    fun d => rfl
  constructor
  · by_cases hc : c ∈ splitters
    · have h1 : textChunker [['a', c], ['x']] = [['a', c, ' '], ['x', ' ']] := by
        simp [textChunker, textChunkerAux, isEndOfSentence, ha, hx, hpair, hc]
      simp [h1, hc]
    · have h1 : textChunker [['a', c], ['x']] = [['a', c, 'x', ' ']] := by
        simp [textChunker, textChunkerAux, isEndOfSentence, ha, hx, hpair, hc]
      simp [h1, hc]
  · by_cases hc : c ∈ splitters
    · have h1 : textChunker [['a'], [c, 'x'], ['y']] =
          [['a', c, ' '], ['x', 'y', ' ']] := by
        simp [textChunker, textChunkerAux, isEndOfSentence, ha, hx, hy, hc]
      simp [h1, hc]
    · have h1 : textChunker [['a'], [c, 'x'], ['y']] =
          [['a', c, 'x', 'y', ' ']] := by
        simp [textChunker, textChunkerAux, isEndOfSentence, ha, hx, hy, hc]
      simp [h1, hc]

/-- C8: nextPlayTime is monotonically non-decreasing: a single decode
step with a nonnegative decoded duration, and a whole queue drain of
frames with nonnegative durations, never decrease it. -/
theorem C8_monotone (npt now dur : ℚ) (frames : List (ℚ × ℚ))
    (hd : 0 ≤ dur) (hf : ∀ p ∈ frames, 0 ≤ p.2) :
    npt ≤ (decodeStep npt now dur).2 ∧ npt ≤ (decodeAll npt frames).2 :=
  ⟨decodeStep_le npt now dur hd, decodeAll_le frames npt hf⟩

/-- C8 witness: monotonicity at nextPlayTime 0, clock 0, a duration of
one second and a one-frame queue. -/
theorem C8_monotone_witness :
    (0 : ℚ) ≤ (decodeStep 0 0 1).2 ∧ (0 : ℚ) ≤ (decodeAll 0 [(0, 1)]).2 :=
  C8_monotone 0 0 1 [(0, 1)] (by norm_num) (by decide)

/-- C9: stopRecording never hangs: in every recorder state and for every
pattern of recorder-data arrival it yields a result within the bounded
polling window — and concretely it times out when no data ever arrives,
and returns the blob when data is present at the first poll. -/
theorem C9_stop_bounded (state : RecorderState)
    (chunkAt : Nat → Option Nat) :
    (stopRecording state chunkAt).isSome = true ∧
      stopRecording RecorderState.recording (fun _ => none) =
        some StopResult.timedOut ∧
      stopRecording RecorderState.recording (fun _ => some 5) =
        some (StopResult.blob 5) := by
  refine ⟨?_, by decide, by decide⟩
  by_cases hst : state = RecorderState.recording
  · rw [stopRecording, if_pos hst]
    show (pollLoop chunkAt (30 + 1) 0 0).isSome = true
    apply pollLoop_isSome
    decide
  · rw [stopRecording, if_neg hst]
    rfl

/-- C10: every chunk textChunker yields is nonempty and ends in a space
character; in particular no chunk equals the empty string, so the
chunk-sending loop can never produce the empty-text end-of-stream
sentinel frame. -/
theorem C10_chunk_nonempty (deltas : List (List Char)) (chunk : List Char)
    (h : chunk ∈ textChunker deltas) :
    chunk ≠ [] ∧ chunk.getLast? = some (' ') := by
  obtain ⟨c, rfl, _⟩ := textChunkerAux_shape deltas [] chunk h
  exact ⟨by simp, by simp⟩

/-- C10 witness: the single chunk for the delta "Hi." is the nonempty,
space-terminated "Hi. ". -/
theorem C10_chunk_nonempty_witness :
    str "Hi. " ∈ textChunker [str "Hi."] ∧
      (str "Hi. " ≠ [] ∧ (str "Hi. ").getLast? = some (' ')) :=
  ⟨by decide, C10_chunk_nonempty [str "Hi."] (str "Hi. ") (by decide)⟩

end Aura
